import Mathlib

/-!
Shallow embedding of `src/oauth_token_cache/token_client.py` (class
`TokenClient`) together with the `Token` value object it uses.

The Redis collaborator is modelled as an explicit state (`RedisState`): a
hash store `String → FieldMap` (the empty field map standing for an absent
key, exactly what `HGETALL` returns for a missing key) and a TTL map.  A
Redis pipeline is a list of commands executed in one batch (`execPipeline`),
mirroring `pipeline()` / `execute()`.

The HTTP collaborator is modelled by passing the response of the single
POST that `fresh_token` issues as an argument; the request that was issued
is returned in the `request` field of the result, so that the embedding
exhibits exactly one outbound request per call by construction.

Python's `str`/`int` string round-trip for integers is modelled by
`pyStr` / `pyIntOfString` (decimal representation; `int()` accepts
surrounding ASCII whitespace, an optional sign and underscores between
digits, as in CPython 3.6+; exotic unicode digits are not modelled).
-/

namespace OAuthTokenCache

/-- A Redis hash: field names to string values.  Lookup takes the first
match, so merging `new ++ old` gives `HSET` override semantics. -/
abbrev FieldMap := List (String × String)

def fmLookup : FieldMap → String → Option String
  | [], _ => none
  | (k, v) :: rest, key => if k = key then some v else fmLookup rest key

/-- A parsed JSON value, as relevant to the token endpoint response body
(string or integer fields). -/
inductive JVal where
  | s (v : String)
  | i (v : Int)
deriving DecidableEq

abbrev JsonObj := List (String × JVal)

def jsonLookup : JsonObj → String → Option JVal
  | [], _ => none
  | (k, v) :: rest, key => if k = key then some v else jsonLookup rest key

/-- The ten decimal digit characters. -/
def pyDigitChar : Nat → Char
  | 0 => '0'
  | 1 => '1'
  | 2 => '2'
  | 3 => '3'
  | 4 => '4'
  | 5 => '5'
  | 6 => '6'
  | 7 => '7'
  | 8 => '8'
  | _ => '9'

def pyDigitVal (c : Char) : Nat := c.toNat - 48

/-- Fuel-driven decimal printer (the fuel `n + 1` always suffices); this is
the digit loop of Python's `str` on a non-negative integer. -/
def natDecimalGo : Nat → Nat → List Char → List Char
  | 0, _, acc => acc
  | fuel + 1, n, acc =>
    if n < 10 then pyDigitChar n :: acc
    else natDecimalGo fuel (n / 10) (pyDigitChar (n % 10) :: acc)

def pyStrNat (n : Nat) : String := ⟨natDecimalGo (n + 1) n []⟩

/-- Python `str` on an `int`: an optional minus sign followed by the decimal
digits, no leading zeros. -/
def pyStr (i : Int) : String :=
  if i < 0 then "-" ++ pyStrNat i.natAbs else pyStrNat i.toNat

/-- Digit run of Python `int(str)`: decimal digits with single underscores
allowed between digits (never leading, trailing or doubled). -/
def pyParseDigitsAux : List Char → Nat → Option Nat
  | [], acc => some acc
  | c :: rest, acc =>
    if c.isDigit then pyParseDigitsAux rest (acc * 10 + pyDigitVal c)
    else if c = '_' then
      match rest with
      | [] => none
      | c2 :: rest2 =>
        if c2.isDigit then pyParseDigitsAux rest2 (acc * 10 + pyDigitVal c2)
        else none
    else none

def pyParseDigits : List Char → Option Nat
  | [] => none
  | c :: rest =>
    if c.isDigit then pyParseDigitsAux rest (pyDigitVal c) else none

/-- ASCII whitespace stripped by Python's `int(str)` (`str.strip`). -/
def isPySpace (c : Char) : Bool :=
  c = ' ' || c = '\t' || c = '\n' || c = '\r' || c = '\x0b' || c = '\x0c'

def pyStrip (cs : List Char) : List Char :=
  ((cs.dropWhile isPySpace).reverse.dropWhile isPySpace).reverse

/-- Python built-in `int()` applied to a string: strip whitespace, optional
single sign, then a non-empty digit run.  Returns `none` where CPython
raises `ValueError`. -/
def pyIntOfString (s : String) : Option Int :=
  match pyStrip s.toList with
  | [] => none
  | c :: rest =>
    if c = '-' then (pyParseDigits rest).map (fun n => -(n : Int))
    else if c = '+' then (pyParseDigits rest).map (fun n => (n : Int))
    else (pyParseDigits (c :: rest)).map (fun n => (n : Int))

/-- Modelled from the spec: the `Token` value object (`token_client.py`
imports it from `.token`, which is not under `src/`).  Spec section 3: four
attributes, `expires_in` an integer (Python `int`), the rest strings. -/
structure Token where
  access_token : String
  expires_in : Int
  token_type : String
  audience : String
deriving DecidableEq

/-- Modelled from the spec: `Token.asdict` (spec section 4.1 `ToFieldMap`)
produces the four fields as strings, `expires_in` in its decimal string
representation. -/
def Token.asdict (t : Token) : FieldMap :=
  [("access_token", t.access_token),
   ("expires_in", pyStr t.expires_in),
   ("token_type", t.token_type),
   ("audience", t.audience)]

/-- The Redis collaborator's observable state: hash contents per key (the
empty map meaning the key is absent, as `HGETALL` reports it) and the TTL
set by `EXPIRE`.  Passage of time (TTL lapse deleting a key) is external to
the program and not modelled. -/
structure RedisState where
  store : String → FieldMap
  ttl : String → Option Int

def emptyRedis : RedisState := ⟨fun _ => [], fun _ => none⟩

/-- The two Redis commands `cache_token` queues on its pipeline. -/
inductive RedisCmd where
  | hmset (key : String) (fields : FieldMap)
  | expire (key : String) (seconds : Int)
deriving DecidableEq

def execCmd (σ : RedisState) : RedisCmd → RedisState
  | .hmset key fields =>
    { σ with store := fun k => if k = key then fields ++ σ.store k else σ.store k }
  | .expire key secs =>
    { σ with ttl := fun k => if k = key then some secs else σ.ttl k }

/-- `pipeline.execute()`: the queued commands are applied as one batch. -/
def execPipeline (σ : RedisState) (cmds : List RedisCmd) : RedisState :=
  cmds.foldl execCmd σ

/-- The configuration held by a `TokenClient` instance after `__init__`. -/
structure Config where
  client_id : String
  client_secret : String
  token_url : String
  audience : String
  timeout : Int
deriving DecidableEq

/-- `TokenClient.__init__`: stores the four strings and
`kwargs.get("timeout", 5)`. -/
def mkTokenClient (client_id client_secret token_url audience : String)
    (timeout : Option Int) : Config :=
  { client_id := client_id, client_secret := client_secret,
    token_url := token_url, audience := audience,
    timeout := timeout.getD 5 }

/-- The `cache_key` property. -/
def cache_key (cfg : Config) : String :=
  "oauth_token_cache__" ++ cfg.client_id ++ "_" ++ cfg.audience

/-- Errors the two operations can surface: `requests.HTTPError` (with the
response's status and body), Python `KeyError` on a missing dict field, and
Python `ValueError` from `int()`. -/
inductive TCError where
  | httpError (status : Nat) (body : JsonObj)
  | keyError (missing : String)
  | valueError (value : String)
deriving DecidableEq

/-- The command batch `cache_token` queues on its pipeline, in order. -/
def cacheTokenBatch (cfg : Config) (token : Token) : List RedisCmd :=
  [RedisCmd.hmset (cache_key cfg) token.asdict,
   RedisCmd.expire (cache_key cfg) token.expires_in]

/-- `TokenClient.cache_token`: queue `hmset(cache_key, token.asdict())` and
`expire(cache_key, token.expires_in)` on one pipeline, execute it as a
single batch, and return the token unchanged. -/
def cache_token (cfg : Config) (σ : RedisState) (token : Token) :
    RedisState × Token :=
  (execPipeline σ (cacheTokenBatch cfg token), token)

/-- `TokenClient.cached_token`: `hgetall(cache_key)`; an empty map is a
cache miss (`if not values: return None`); otherwise the dict lookups and
the `int()` coercion happen in Python's evaluation order
`values["access_token"]`, `int(values["expires_in"])`,
`values["token_type"]`, `values["audience"]`. -/
def cached_token (cfg : Config) (σ : RedisState) :
    Except TCError (Option Token) :=
  let values := σ.store (cache_key cfg)
  if values.isEmpty then .ok none
  else
    match fmLookup values "access_token" with
    | none => .error (.keyError "access_token")
    | some a =>
      match fmLookup values "expires_in" with
      | none => .error (.keyError "expires_in")
      | some es =>
        match pyIntOfString es with
        | none => .error (.valueError es)
        | some e =>
          match fmLookup values "token_type" with
          | none => .error (.keyError "token_type")
          | some tt =>
            match fmLookup values "audience" with
            | none => .error (.keyError "audience")
            | some au => .ok (some ⟨a, e, tt, au⟩)

/-- The single POST request `fresh_token` issues. -/
structure HttpRequest where
  url : String
  payload : JsonObj
  allow_redirects : Bool
  timeout : Int
deriving DecidableEq

def fresh_token_request (cfg : Config) : HttpRequest :=
  { url := cfg.token_url,
    payload := [("grant_type", .s "client_credentials"),
                ("client_id", .s cfg.client_id),
                ("client_secret", .s cfg.client_secret),
                ("audience", .s cfg.audience)],
    allow_redirects := false,
    timeout := cfg.timeout }

/-- The token endpoint's response: HTTP status and parsed JSON object body. -/
structure Response where
  status : Nat
  body : JsonObj
deriving DecidableEq

/-- `requests.Response.raise_for_status` raises `HTTPError` exactly for
status codes in `400..599`; informational and redirect statuses pass. -/
def raisesForStatus (status : Nat) : Bool := 400 ≤ status && status < 600

/-- A non-string JSON value here would be stored as-is by Python; the
embedding narrows `Token` fields to strings and records such a value by its
decimal representation.  No claim concerns that corner. -/
def jvalAsString : JVal → String
  | .s v => v
  | .i n => pyStr n

/-- The `int()` coercion `Token.__init__` applies to `expires_in` (spec
section 4.1): a JSON integer passes through, a string is parsed. -/
def jvalToInt : JVal → Option Int
  | .i n => some n
  | .s v => pyIntOfString v

/-- What `fresh_token` returns: the one request it issued, the resulting
cache state, and the token or the error raised. -/
structure FreshResult where
  request : HttpRequest
  state : RedisState
  result : Except TCError Token

def freshParse (cfg : Config) (σ : RedisState) (resp : Response) :
    RedisState × Except TCError Token :=
  if raisesForStatus resp.status then
    (σ, .error (.httpError resp.status resp.body))
  else
    match jsonLookup resp.body "access_token" with
    | none => (σ, .error (.keyError "access_token"))
    | some av =>
      match jsonLookup resp.body "expires_in" with
      | none => (σ, .error (.keyError "expires_in"))
      | some ev =>
        match jsonLookup resp.body "token_type" with
        | none => (σ, .error (.keyError "token_type"))
        | some tv =>
          match jvalToInt ev with
          | none => (σ, .error (.valueError (jvalAsString ev)))
          | some e =>
            let token : Token :=
              ⟨jvalAsString av, e, jvalAsString tv, cfg.audience⟩
            ((cache_token cfg σ token).1, .ok (cache_token cfg σ token).2)

/-- `TokenClient.fresh_token`: build the client-credentials payload, POST it
(one request; its response is the `resp` argument), `raise_for_status`,
parse the body, construct the Token and return `cache_token(token)`. -/
def fresh_token (cfg : Config) (σ : RedisState) (resp : Response) :
    FreshResult :=
  { request := fresh_token_request cfg,
    state := (freshParse cfg σ resp).1,
    result := (freshParse cfg σ resp).2 }

/-! Lemmas: Python `str` / `int` round-trip on integers. -/

def digitsFoldStep (a : Nat) (c : Char) : Nat := a * 10 + pyDigitVal c

lemma pyDigitChar_isDigit : ∀ n : Nat, (pyDigitChar n).isDigit = true
  | 0 => by decide
  | 1 => by decide
  | 2 => by decide
  | 3 => by decide
  | 4 => by decide
  | 5 => by decide
  | 6 => by decide
  | 7 => by decide
  | 8 => by decide
  | _ + 9 => rfl

lemma pyDigitVal_pyDigitChar (n : Nat) (h : n < 10) :
    pyDigitVal (pyDigitChar n) = n := by
  interval_cases n <;> decide

lemma not_space_of_isDigit {c : Char} (h : c.isDigit = true) :
    isPySpace c = false := by
  by_contra hne
  rw [Bool.not_eq_false] at hne
  simp only [isPySpace, Bool.or_eq_true, decide_eq_true_eq] at hne
  rcases hne with ((((h1 | h1) | h1) | h1) | h1) | h1 <;> rw [h1] at h <;>
    exact absurd h (by decide)

lemma ne_dash_of_isDigit {c : Char} (h : c.isDigit = true) : c ≠ '-' := by
  intro hc; subst hc; exact absurd h (by decide)

lemma ne_plus_of_isDigit {c : Char} (h : c.isDigit = true) : c ≠ '+' := by
  intro hc; subst hc; exact absurd h (by decide)

lemma dropWhile_space_eq_self {l : List Char}
    (h : ∀ c ∈ l, isPySpace c = false) : l.dropWhile isPySpace = l := by
  cases l with
  | nil => rfl
  | cons c rest => simp [List.dropWhile_cons, h c (by simp)]

lemma pyStrip_eq_self {l : List Char}
    (h : ∀ c ∈ l, isPySpace c = false) : pyStrip l = l := by
  unfold pyStrip
  rw [dropWhile_space_eq_self h,
    dropWhile_space_eq_self (fun c hc => h c (List.mem_reverse.mp hc)),
    List.reverse_reverse]

lemma natDecimalGo_spec (n : Nat) : ∀ fuel acc, 1 ≤ fuel → n < 10 ^ fuel →
    ∃ ds, natDecimalGo fuel n acc = ds ++ acc ∧ ds ≠ [] ∧
      (∀ c ∈ ds, c.isDigit = true) ∧
      ∀ a : Nat, ds.foldl digitsFoldStep a = a * 10 ^ ds.length + n := by
  induction n using Nat.strong_induction_on with
  | _ n ih =>
    intro fuel acc hf hlt
    obtain ⟨f, rfl⟩ : ∃ f, fuel = f + 1 := ⟨fuel - 1, by omega⟩
    by_cases h10 : n < 10
    · refine ⟨[pyDigitChar n], by simp [natDecimalGo, h10], by simp, ?_, ?_⟩
      · intro c hc
        simp only [List.mem_singleton] at hc
        subst hc
        exact pyDigitChar_isDigit n
      · intro a
        simp [digitsFoldStep, pyDigitVal_pyDigitChar n h10, pow_one]
    · have hdiv : n / 10 < n := Nat.div_lt_self (by omega) (by omega)
      have hf1 : 1 ≤ f := by
        rcases Nat.eq_zero_or_pos f with h0 | h1
        · subst h0; simp [pow_one] at hlt; omega
        · exact h1
      have hlt2 : n / 10 < 10 ^ f := by
        rw [Nat.div_lt_iff_lt_mul (by omega)]
        calc n < 10 ^ (f + 1) := hlt
        _ = 10 ^ f * 10 := by rw [pow_succ]
      obtain ⟨ds, hds, hne, hdig, hfold⟩ :=
        ih (n / 10) hdiv f (pyDigitChar (n % 10) :: acc) hf1 hlt2
      refine ⟨ds ++ [pyDigitChar (n % 10)], ?_, by simp, ?_, ?_⟩
      · rw [natDecimalGo, if_neg h10, hds, List.append_assoc,
          List.singleton_append]
      · intro c hc
        rcases List.mem_append.mp hc with h | h
        · exact hdig c h
        · simp only [List.mem_singleton] at h
          subst h
          exact pyDigitChar_isDigit _
      · intro a
        rw [List.foldl_append]
        show digitsFoldStep (ds.foldl digitsFoldStep a) (pyDigitChar (n % 10)) = _
        rw [hfold a]
        unfold digitsFoldStep
        rw [pyDigitVal_pyDigitChar _ (Nat.mod_lt n (by omega)),
          List.length_append, List.length_singleton]
        calc (a * 10 ^ ds.length + n / 10) * 10 + n % 10
            = a * (10 ^ ds.length * 10) + (n / 10 * 10 + n % 10) := by ring
        _ = a * 10 ^ (ds.length + 1) + n := by rw [pow_succ]; omega

lemma pyParseDigitsAux_all_digits :
    ∀ (cs : List Char) (acc : Nat), (∀ c ∈ cs, c.isDigit = true) →
      pyParseDigitsAux cs acc = some (cs.foldl digitsFoldStep acc)
  | [], _, _ => rfl
  | c :: rest, acc, h => by
    have hc : c.isDigit = true := h c (by simp)
    unfold pyParseDigitsAux
    rw [if_pos hc, List.foldl_cons]
    exact pyParseDigitsAux_all_digits rest _ (fun d hd => h d (by simp [hd]))

lemma pyParseDigits_all_digits {c : Char} {rest : List Char}
    (h : ∀ d ∈ c :: rest, d.isDigit = true) :
    pyParseDigits (c :: rest) = some ((c :: rest).foldl digitsFoldStep 0) := by
  have hc : c.isDigit = true := h c (by simp)
  rw [pyParseDigits, if_pos hc, List.foldl_cons,
    pyParseDigitsAux_all_digits rest _ (fun d hd => h d (by simp [hd]))]
  show _ = some (rest.foldl digitsFoldStep (digitsFoldStep 0 c))
  unfold digitsFoldStep
  rw [Nat.zero_mul, Nat.zero_add]

lemma pyStrNat_toList_spec (n : Nat) :
    (pyStrNat n).toList ≠ [] ∧ (∀ c ∈ (pyStrNat n).toList, c.isDigit = true) ∧
    pyParseDigits (pyStrNat n).toList = some n := by
  have hlt : n < 10 ^ (n + 1) :=
    lt_of_lt_of_le (Nat.lt_pow_self (by omega) n)
      (Nat.pow_le_pow_right (by omega) (by omega))
  obtain ⟨ds, hds, hne, hdig, hfold⟩ :=
    natDecimalGo_spec n (n + 1) [] (by omega) hlt
  have htl : (pyStrNat n).toList = ds := by
    show natDecimalGo (n + 1) n [] = ds
    rw [hds, List.append_nil]
  rw [htl]
  refine ⟨hne, hdig, ?_⟩
  cases ds with
  | nil => exact absurd rfl hne
  | cons c rest =>
    rw [pyParseDigits_all_digits hdig, hfold 0, Nat.zero_mul, Nat.zero_add]

/-- Python `int(str(i)) == i` for every integer `i`. -/
lemma pyIntOfString_pyStr (i : Int) : pyIntOfString (pyStr i) = some i := by
  obtain ⟨hne, hdig, hparse⟩ := pyStrNat_toList_spec i.natAbs
  by_cases hneg : i < 0
  · have hstr : pyStr i = "-" ++ pyStrNat i.natAbs := if_pos hneg
    have htl : (pyStr i).toList = '-' :: (pyStrNat i.natAbs).toList := by
      rw [hstr]
      show (("-" : String) ++ pyStrNat i.natAbs).data = _
      rw [String.data_append]
      rfl
    have hstrip : pyStrip (pyStr i).toList = '-' :: (pyStrNat i.natAbs).toList := by
      rw [htl]
      refine pyStrip_eq_self ?_
      intro c hc
      rcases List.mem_cons.mp hc with h | h
      · subst h; decide
      · exact not_space_of_isDigit (hdig c h)
    rw [pyIntOfString, hstrip]
    show (pyParseDigits (pyStrNat i.natAbs).toList).map (fun n => -(n : Int)) =
      some i
    rw [hparse]
    show some (-((i.natAbs : Nat) : Int)) = some i
    congr 1
    omega
  · have hnn : 0 ≤ i := by omega
    have habs : i.toNat = i.natAbs := by omega
    have hstr : pyStr i = pyStrNat i.natAbs := by
      rw [pyStr, if_neg hneg, habs]
    rcases hlist : (pyStrNat i.natAbs).toList with _ | ⟨c, rest⟩
    · exact absurd hlist hne
    · have hcdig : c.isDigit = true := hdig c (by rw [hlist]; simp)
      have hstrip : pyStrip (pyStr i).toList = c :: rest := by
        rw [hstr, hlist]
        refine pyStrip_eq_self ?_
        intro d hd
        exact not_space_of_isDigit (hdig d (by rw [hlist]; exact hd))
      rw [pyIntOfString, hstrip]
      show (if c = '-' then (pyParseDigits rest).map (fun n => -(n : Int))
        else if c = '+' then (pyParseDigits rest).map (fun n => (n : Int))
        else (pyParseDigits (c :: rest)).map (fun n => (n : Int))) = some i
      rw [if_neg (ne_dash_of_isDigit hcdig), if_neg (ne_plus_of_isDigit hcdig),
        ← hlist, hparse]
      show some (((i.natAbs : Nat) : Int)) = some i
      congr 1
      omega

/-! Lemmas: effect of `cache_token` on the Redis state. -/

lemma cache_token_store (cfg : Config) (σ : RedisState) (t : Token) :
    ((cache_token cfg σ t).1).store (cache_key cfg) =
      t.asdict ++ σ.store (cache_key cfg) := by
  simp [cache_token, execPipeline, cacheTokenBatch, execCmd]

lemma cache_token_ttl (cfg : Config) (σ : RedisState) (t : Token) :
    ((cache_token cfg σ t).1).ttl (cache_key cfg) = some t.expires_in := by
  simp [cache_token, execPipeline, cacheTokenBatch, execCmd]

lemma fmLookup_asdict_access (t : Token) (rest : FieldMap) :
    fmLookup (t.asdict ++ rest) "access_token" = some t.access_token := by
  simp [Token.asdict, fmLookup]

lemma fmLookup_asdict_expires (t : Token) (rest : FieldMap) :
    fmLookup (t.asdict ++ rest) "expires_in" = some (pyStr t.expires_in) := by
  simp [Token.asdict, fmLookup]

lemma fmLookup_asdict_type (t : Token) (rest : FieldMap) :
    fmLookup (t.asdict ++ rest) "token_type" = some t.token_type := by
  simp [Token.asdict, fmLookup]

lemma fmLookup_asdict_audience (t : Token) (rest : FieldMap) :
    fmLookup (t.asdict ++ rest) "audience" = some t.audience := by
  simp [Token.asdict, fmLookup]

lemma asdict_append_isEmpty (t : Token) (rest : FieldMap) :
    (t.asdict ++ rest).isEmpty = false := by
  simp [Token.asdict]

/-! Lemmas: uniqueness of the underscore split used by `cache_key`. -/

lemma underscore_split_unique :
    ∀ (l1 l2 m1 m2 : List Char), '_' ∉ l1 → '_' ∉ l2 →
      l1 ++ '_' :: m1 = l2 ++ '_' :: m2 → l1 = l2 ∧ m1 = m2
  | [], [], _, _, _, _, h => ⟨rfl, by simpa using h⟩
  | [], c :: l2, _, _, _, h2, h => by
    rw [List.nil_append, List.cons_append] at h
    injection h with hc _
    subst hc
    exact absurd (List.mem_cons_self _ _) h2
  | c :: l1, [], _, _, h1, _, h => by
    rw [List.nil_append, List.cons_append] at h
    injection h with hc _
    subst hc
    exact absurd (List.mem_cons_self _ _) h1
  | c :: l1, d :: l2, m1, m2, h1, h2, h => by
    rw [List.cons_append, List.cons_append] at h
    injection h with hc htail
    obtain ⟨hl, hm⟩ := underscore_split_unique l1 l2 m1 m2
      (fun hm => h1 (List.mem_cons_of_mem _ hm))
      (fun hm => h2 (List.mem_cons_of_mem _ hm)) htail
    subst hc
    rw [hl, hm]
    exact ⟨rfl, rfl⟩

lemma cache_key_toList (cfg : Config) :
    (cache_key cfg).toList =
      "oauth_token_cache__".toList ++
        (cfg.client_id.toList ++ ('_' :: cfg.audience.toList)) := by
  show (("oauth_token_cache__" ++ cfg.client_id ++ "_" ++ cfg.audience)).data = _
  rw [String.data_append, String.data_append, String.data_append,
    List.append_assoc, List.append_assoc]
  rfl

lemma cache_key_inj {c1 c2 : Config}
    (hu1 : '_' ∉ c1.client_id.toList) (hu2 : '_' ∉ c2.client_id.toList)
    (h : cache_key c1 = cache_key c2) :
    c1.client_id = c2.client_id ∧ c1.audience = c2.audience := by
  have hl : (cache_key c1).toList = (cache_key c2).toList := by rw [h]
  rw [cache_key_toList, cache_key_toList] at hl
  obtain ⟨hcid, haud⟩ := underscore_split_unique _ _ _ _ hu1 hu2
    (List.append_cancel_left hl)
  exact ⟨String.ext hcid, String.ext haud⟩

/-! Shared concrete inputs used by witnesses and counterexamples. -/

def exampleConfig : Config := mkTokenClient "cid" "sec" "url" "aud" none

def exampleResponse : Response :=
  ⟨200, [("access_token", JVal.s "abc"), ("expires_in", JVal.i 3600),
         ("token_type", JVal.s "Bearer")]⟩

def exampleToken : Token := ⟨"abc", 3600, "Bearer", "aud"⟩

/-- A Redis state holding exactly the given field map at the example
configuration's cache key. -/
def stateWithFields (fm : FieldMap) : RedisState :=
  ⟨fun k => if k = cache_key exampleConfig then fm else [], fun _ => none⟩

/-! Claim theorems. -/

/-- Claim C1: for every Token `t`, running `cache_token(t)` and then
`cached_token()` on the resulting cache state returns a Token equal to `t`
in all four fields, `expires_in` being parsed back from its string
representation. -/
theorem cache_token_cached_token_roundtrip (cfg : Config) (σ : RedisState)
    (t : Token) :
    cached_token cfg (cache_token cfg σ t).1 = Except.ok (some t) := by
  simp only [cached_token, cache_token_store, asdict_append_isEmpty,
    Bool.false_eq_true, if_false, fmLookup_asdict_access,
    fmLookup_asdict_expires, fmLookup_asdict_type, fmLookup_asdict_audience,
    pyIntOfString_pyStr]

/-- Claim C3 (amended): `cache_key` is the pure deterministic string
`"oauth_token_cache__" ++ client_id ++ "_" ++ audience`; equal
`(client_id, audience)` pairs give equal keys, and distinct pairs give
distinct keys provided the client ids contain no underscore (the naive
interpolation makes distinct pairs with underscores collide). -/
theorem cache_key_deterministic_inj (c1 c2 : Config) :
    (c1.client_id = c2.client_id ∧ c1.audience = c2.audience →
      cache_key c1 = cache_key c2) ∧
    ('_' ∉ c1.client_id.toList → '_' ∉ c2.client_id.toList →
      (c1.client_id, c1.audience) ≠ (c2.client_id, c2.audience) →
      cache_key c1 ≠ cache_key c2) := by
  constructor
  · rintro ⟨h1, h2⟩
    unfold cache_key
    rw [h1, h2]
  · intro hu1 hu2 hne hk
    obtain ⟨h1, h2⟩ := cache_key_inj hu1 hu2 hk
    exact hne (by rw [h1, h2])

theorem cache_key_deterministic_inj_witness :
    cache_key (mkTokenClient "alice" "sec" "url" "svcA" none) ≠
      cache_key (mkTokenClient "bob" "sec" "url" "svcA" none) :=
  (cache_key_deterministic_inj _ _).2 (by decide) (by decide) (by decide)

/-- Claim C3 counterexample: the distinct pairs `("a_b", "c")` and `("a", "b_c")`
map to the same cache key `"oauth_token_cache__a_b_c"`, so distinct
`(client_id, audience)` pairs do not always yield distinct keys. -/
theorem cache_key_collision_counterexample :
    cache_key (mkTokenClient "a_b" "sec" "url" "c" none) =
      cache_key (mkTokenClient "a" "sec" "url" "b_c" none) ∧
    (("a_b" : String), ("c" : String)) ≠ (("a" : String), ("b_c" : String)) := by
  exact ⟨rfl, by decide⟩

/-- Claim C5: when the cache returns an empty field map for the key (which is also
what an absent key yields), `cached_token` returns `none` rather than an
error; the operation is a pure read of the state and performs no write. -/
theorem cached_token_miss_returns_none (cfg : Config) (σ : RedisState)
    (h : σ.store (cache_key cfg) = []) :
    cached_token cfg σ = Except.ok none := by
  simp [cached_token, h]

theorem cached_token_miss_returns_none_witness :
    cached_token exampleConfig emptyRedis = Except.ok none :=
  cached_token_miss_returns_none _ _ rfl

/-- Claim C6: `cache_token(t)` submits as one pipeline batch exactly the field-set
of all four serialized fields and the expiry-set to `t.expires_in` seconds
at the derived cache key; the batch is applied by a single `execPipeline`
step, so no state with only one of the two effects exists in the model, and
the resulting state holds all four fields and the TTL. -/
theorem cache_token_atomic_batch (cfg : Config) (σ : RedisState) (t : Token) :
    cache_token cfg σ t =
      (execPipeline σ [RedisCmd.hmset (cache_key cfg) t.asdict,
                       RedisCmd.expire (cache_key cfg) t.expires_in], t) ∧
    ((cache_token cfg σ t).1).ttl (cache_key cfg) = some t.expires_in ∧
    fmLookup (((cache_token cfg σ t).1).store (cache_key cfg)) "access_token" =
      some t.access_token ∧
    fmLookup (((cache_token cfg σ t).1).store (cache_key cfg)) "expires_in" =
      some (pyStr t.expires_in) ∧
    fmLookup (((cache_token cfg σ t).1).store (cache_key cfg)) "token_type" =
      some t.token_type ∧
    fmLookup (((cache_token cfg σ t).1).store (cache_key cfg)) "audience" =
      some t.audience := by
  refine ⟨rfl, cache_token_ttl cfg σ t, ?_, ?_, ?_, ?_⟩ <;>
    rw [cache_token_store] <;>
      [exact fmLookup_asdict_access t _; exact fmLookup_asdict_expires t _;
       exact fmLookup_asdict_type t _; exact fmLookup_asdict_audience t _]

/-- When `freshParse` succeeds, its value is exactly what `cache_token`
produced on the returned token. -/
lemma freshParse_ok {cfg : Config} {σ : RedisState} {resp : Response}
    {tok : Token} (h : (freshParse cfg σ resp).2 = Except.ok tok) :
    freshParse cfg σ resp = ((cache_token cfg σ tok).1, Except.ok tok) := by
  unfold freshParse at h
  by_cases hs : raisesForStatus resp.status
  · rw [if_pos hs] at h
    exact absurd h (by simp)
  · rw [if_neg hs] at h
    rcases ha : jsonLookup resp.body "access_token" with _ | av
    · simp [ha] at h
    rcases he : jsonLookup resp.body "expires_in" with _ | ev
    · simp [ha, he] at h
    rcases ht : jsonLookup resp.body "token_type" with _ | tv
    · simp [ha, he, ht] at h
    rcases hv : jvalToInt ev with _ | e
    · simp [ha, he, ht, hv] at h
    simp only [ha, he, ht, hv] at h
    have h2 : Except.ok (⟨jvalAsString av, e, jvalAsString tv, cfg.audience⟩ :
        Token) = Except.ok tok := h
    injection h2 with htok
    rw [freshParse, if_neg hs]
    simp only [ha, he, ht, hv]
    rw [← htok]
    rfl

/-- Claim C7: `cache_token` returns its argument unchanged (identity passthrough
of the token value), and whenever `fresh_token` succeeds its state and
returned token are exactly those produced by its internal `cache_token`
call. -/
theorem cache_token_identity_passthrough (cfg : Config) (σ : RedisState)
    (t : Token) (resp : Response) (tok : Token)
    (h : (fresh_token cfg σ resp).result = Except.ok tok) :
    (cache_token cfg σ t).2 = t ∧
    (fresh_token cfg σ resp).state = (cache_token cfg σ tok).1 ∧
    (fresh_token cfg σ resp).result = Except.ok ((cache_token cfg σ tok).2) := by
  have h2 : (freshParse cfg σ resp).2 = Except.ok tok := h
  have hp := freshParse_ok h2
  refine ⟨rfl, ?_, ?_⟩
  · show (freshParse cfg σ resp).1 = _
    rw [hp]
  · show (freshParse cfg σ resp).2 = _
    rw [hp]
    rfl

theorem cache_token_identity_passthrough_witness :
    (cache_token exampleConfig emptyRedis ⟨"tk", 7, "Bearer", "aud"⟩).2 =
      ⟨"tk", 7, "Bearer", "aud"⟩ ∧
    (fresh_token exampleConfig emptyRedis exampleResponse).state =
      (cache_token exampleConfig emptyRedis exampleToken).1 ∧
    (fresh_token exampleConfig emptyRedis exampleResponse).result =
      Except.ok ((cache_token exampleConfig emptyRedis exampleToken).2) :=
  cache_token_identity_passthrough _ _ _ _ _ rfl

/-- Claim C9: `fresh_token` issues exactly one POST (the single `request` field of
its result) to the configured `token_url`, whose JSON payload is exactly
`grant_type="client_credentials"` plus the configured `client_id`,
`client_secret` and `audience`, with redirects disallowed and the
configured timeout, which `__init__` defaults to 5 when not supplied. -/
theorem fresh_token_single_request (cid sec url aud : String)
    (tmo : Option Int) (σ : RedisState) (resp : Response) :
    (fresh_token (mkTokenClient cid sec url aud tmo) σ resp).request =
      ⟨url,
       [("grant_type", JVal.s "client_credentials"), ("client_id", JVal.s cid),
        ("client_secret", JVal.s sec), ("audience", JVal.s aud)],
       false, tmo.getD 5⟩ ∧
    (mkTokenClient cid sec url aud none).timeout = 5 :=
  ⟨rfl, rfl⟩

/-- Claim C4 (amended): for every response with a 4xx or 5xx status,
`fresh_token` raises `HTTPError` carrying the response status and body and
leaves the cache state unchanged.  (Redirect 3xx statuses do not raise:
`raise_for_status` only raises for 400–599, so a 3xx response proceeds to
JSON parsing — see the counterexample.) -/
theorem fresh_token_error_status_no_write (cfg : Config) (σ : RedisState)
    (resp : Response) (h : 400 ≤ resp.status ∧ resp.status < 600) :
    (fresh_token cfg σ resp).result =
      Except.error (TCError.httpError resp.status resp.body) ∧
    (fresh_token cfg σ resp).state = σ := by
  have hb : raisesForStatus resp.status = true := by
    simp only [raisesForStatus, Bool.and_eq_true, decide_eq_true_eq]
    exact ⟨h.1, h.2⟩
  constructor
  · show (freshParse cfg σ resp).2 = _
    rw [freshParse, if_pos hb]
  · show (freshParse cfg σ resp).1 = σ
    rw [freshParse, if_pos hb]

theorem fresh_token_error_status_no_write_witness :
    (fresh_token exampleConfig emptyRedis ⟨401, []⟩).result =
      Except.error (TCError.httpError 401 []) ∧
    (fresh_token exampleConfig emptyRedis ⟨401, []⟩).state = emptyRedis :=
  fresh_token_error_status_no_write _ _ _ (by decide)

/-- Claim C4 counterexample: a 301 redirect response is not a success (2xx), yet
`raise_for_status` does not raise for it; with a well-formed JSON body
`fresh_token` succeeds and writes the cache (here: sets the key's TTL), so
not every non-2xx response raises an HTTP error without a cache write. -/
theorem fresh_token_redirect_counterexample :
    (fresh_token exampleConfig emptyRedis ⟨301, exampleResponse.body⟩).result =
      Except.ok exampleToken ∧
    ((fresh_token exampleConfig emptyRedis
        ⟨301, exampleResponse.body⟩).state).ttl (cache_key exampleConfig) =
      some 3600 :=
  ⟨rfl, rfl⟩

/-- Claim C2: on a 2xx response whose JSON body has string `access_token`, integer
`expires_in` and string `token_type`, `fresh_token` builds the Token from
those plus the configured audience, returns it, and its resulting cache
state is exactly `cache_token`'s write of that token at the derived key:
all four serialized fields and the TTL are set there. -/
theorem fresh_token_success_caches_and_returns (cfg : Config)
    (σ : RedisState) (resp : Response) (a e tt : _)
    (h2 : 200 ≤ resp.status ∧ resp.status < 300)
    (ha : jsonLookup resp.body "access_token" = some (JVal.s a))
    (he : jsonLookup resp.body "expires_in" = some (JVal.i e))
    (ht : jsonLookup resp.body "token_type" = some (JVal.s tt)) :
    (fresh_token cfg σ resp).result = Except.ok ⟨a, e, tt, cfg.audience⟩ ∧
    (fresh_token cfg σ resp).state =
      (cache_token cfg σ ⟨a, e, tt, cfg.audience⟩).1 ∧
    fmLookup ((fresh_token cfg σ resp).state.store (cache_key cfg))
      "access_token" = some a ∧
    fmLookup ((fresh_token cfg σ resp).state.store (cache_key cfg))
      "expires_in" = some (pyStr e) ∧
    fmLookup ((fresh_token cfg σ resp).state.store (cache_key cfg))
      "token_type" = some tt ∧
    fmLookup ((fresh_token cfg σ resp).state.store (cache_key cfg))
      "audience" = some cfg.audience ∧
    ((fresh_token cfg σ resp).state).ttl (cache_key cfg) = some e := by
  have hs : raisesForStatus resp.status = false := by
    have h4 : ¬ 400 ≤ resp.status := by omega
    simp [raisesForStatus, h4]
  have hfp : freshParse cfg σ resp =
      ((cache_token cfg σ ⟨a, e, tt, cfg.audience⟩).1,
        Except.ok ⟨a, e, tt, cfg.audience⟩) := by
    rw [freshParse, if_neg (by simp [hs]), ha, he, ht]
    simp [jvalToInt, jvalAsString, cache_token]
  have hst : (fresh_token cfg σ resp).state =
      (cache_token cfg σ ⟨a, e, tt, cfg.audience⟩).1 := by
    show (freshParse cfg σ resp).1 = _
    rw [hfp]
  refine ⟨?_, hst, ?_, ?_, ?_, ?_, ?_⟩
  · show (freshParse cfg σ resp).2 = _
    rw [hfp]
  · rw [hst, cache_token_store]
    exact fmLookup_asdict_access _ _
  · rw [hst, cache_token_store]
    exact fmLookup_asdict_expires _ _
  · rw [hst, cache_token_store]
    exact fmLookup_asdict_type _ _
  · rw [hst, cache_token_store]
    exact fmLookup_asdict_audience _ _
  · rw [hst]
    exact cache_token_ttl _ _ _

theorem fresh_token_success_caches_and_returns_witness :
    (fresh_token exampleConfig emptyRedis exampleResponse).result =
      Except.ok exampleToken ∧
    (fresh_token exampleConfig emptyRedis exampleResponse).state =
      (cache_token exampleConfig emptyRedis exampleToken).1 ∧
    fmLookup ((fresh_token exampleConfig emptyRedis exampleResponse).state.store
      (cache_key exampleConfig)) "access_token" = some "abc" ∧
    fmLookup ((fresh_token exampleConfig emptyRedis exampleResponse).state.store
      (cache_key exampleConfig)) "expires_in" = some (pyStr 3600) ∧
    fmLookup ((fresh_token exampleConfig emptyRedis exampleResponse).state.store
      (cache_key exampleConfig)) "token_type" = some "Bearer" ∧
    fmLookup ((fresh_token exampleConfig emptyRedis exampleResponse).state.store
      (cache_key exampleConfig)) "audience" = some "aud" ∧
    ((fresh_token exampleConfig emptyRedis exampleResponse).state).ttl
      (cache_key exampleConfig) = some 3600 :=
  fresh_token_success_caches_and_returns exampleConfig emptyRedis
    exampleResponse "abc" 3600 "Bearer" (by decide) rfl rfl rfl

/-- Claim C8 (amended): whenever the cached field map contains `access_token` and
an `expires_in` value that is not parseable as an integer, `cached_token`
fails with `ValueError` (a parsing error).  If `access_token` is absent the
earlier dict lookup raises `KeyError` first — see the counterexample. -/
theorem cached_token_malformed_expires_error (cfg : Config) (σ : RedisState)
    (a es : String)
    (ha : fmLookup (σ.store (cache_key cfg)) "access_token" = some a)
    (he : fmLookup (σ.store (cache_key cfg)) "expires_in" = some es)
    (hp : pyIntOfString es = none) :
    cached_token cfg σ = Except.error (TCError.valueError es) := by
  have hne : (σ.store (cache_key cfg)).isEmpty = false := by
    rcases hl : σ.store (cache_key cfg) with _ | _
    · rw [hl] at ha
      exact absurd ha (by simp [fmLookup])
    · rfl
  simp [cached_token, hne, ha, he, hp]

theorem cached_token_malformed_expires_error_witness :
    cached_token exampleConfig
      (stateWithFields [("access_token", "x"), ("expires_in", "zz")]) =
      Except.error (TCError.valueError "zz") :=
  cached_token_malformed_expires_error _ _ "x" "zz" rfl rfl rfl

/-- Claim C8 counterexample: the cached map `{expires_in: "zz"}` is non-empty and
its `expires_in` is not parseable as an integer, yet `cached_token` raises
`KeyError("access_token")` — `values["access_token"]` is evaluated before
`int(values["expires_in"])` — not a parsing error. -/
theorem cached_token_malformed_counterexample :
    pyIntOfString "zz" = none ∧
    ([("expires_in", "zz")] : FieldMap) ≠ [] ∧
    cached_token exampleConfig (stateWithFields [("expires_in", "zz")]) =
      Except.error (TCError.keyError "access_token") :=
  ⟨rfl, by decide, rfl⟩

/-- Claim C10 (amended): whenever the cache returns a non-empty field map lacking
any of the four expected fields, `cached_token` raises an error rather than
returning the no-token result: a `KeyError` for the first missing field in
access order (`access_token`, `expires_in`, `token_type`, `audience`), or a
`ValueError` if a malformed `expires_in` value is coerced before the
missing field is reached. -/
theorem cached_token_incomplete_map_errors (cfg : Config) (σ : RedisState)
    (hne : (σ.store (cache_key cfg)).isEmpty = false)
    (hmiss : fmLookup (σ.store (cache_key cfg)) "access_token" = none ∨
      fmLookup (σ.store (cache_key cfg)) "expires_in" = none ∨
      fmLookup (σ.store (cache_key cfg)) "token_type" = none ∨
      fmLookup (σ.store (cache_key cfg)) "audience" = none) :
    (∃ f, cached_token cfg σ = Except.error (TCError.keyError f)) ∨
    (∃ v, cached_token cfg σ = Except.error (TCError.valueError v)) := by
  rcases ha : fmLookup (σ.store (cache_key cfg)) "access_token" with _ | a
  · exact Or.inl ⟨"access_token", by simp [cached_token, hne, ha]⟩
  rcases he : fmLookup (σ.store (cache_key cfg)) "expires_in" with _ | es
  · exact Or.inl ⟨"expires_in", by simp [cached_token, hne, ha, he]⟩
  rcases hp : pyIntOfString es with _ | e
  · exact Or.inr ⟨es, by simp [cached_token, hne, ha, he, hp]⟩
  rcases ht : fmLookup (σ.store (cache_key cfg)) "token_type" with _ | tt
  · exact Or.inl ⟨"token_type", by simp [cached_token, hne, ha, he, hp, ht]⟩
  rcases hau : fmLookup (σ.store (cache_key cfg)) "audience" with _ | au
  · exact Or.inl ⟨"audience", by simp [cached_token, hne, ha, he, hp, ht, hau]⟩
  rcases hmiss with h | h | h | h
  · rw [h] at ha
    cases ha
  · rw [h] at he
    cases he
  · rw [h] at ht
    cases ht
  · rw [h] at hau
    cases hau

theorem cached_token_incomplete_map_errors_witness :
    (∃ f, cached_token exampleConfig
        (stateWithFields [("access_token", "x"), ("expires_in", "10")]) =
        Except.error (TCError.keyError f)) ∨
    (∃ v, cached_token exampleConfig
        (stateWithFields [("access_token", "x"), ("expires_in", "10")]) =
        Except.error (TCError.valueError v)) :=
  cached_token_incomplete_map_errors _ _ rfl (Or.inr (Or.inr (Or.inl rfl)))

/-- Claim C10 counterexample: the non-empty cached map
`{access_token: "x", expires_in: "zz", audience: "y"}` lacks `token_type`,
yet `cached_token` raises `ValueError("zz")` from the `int()` coercion —
which Python evaluates before the `token_type` lookup — not a KeyError. -/
theorem cached_token_incomplete_map_counterexample :
    fmLookup [("access_token", "x"), ("expires_in", "zz"), ("audience", "y")]
      "token_type" = none ∧
    ([("access_token", "x"), ("expires_in", "zz"), ("audience", "y")] :
      FieldMap) ≠ [] ∧
    cached_token exampleConfig (stateWithFields
      [("access_token", "x"), ("expires_in", "zz"), ("audience", "y")]) =
      Except.error (TCError.valueError "zz") :=
  ⟨rfl, by decide, rfl⟩

end OAuthTokenCache
